import Mathlib

/-!  Verification of the document chunking and local text-analysis pipeline of
the LangChain Document Intelligence System repository.

JavaScript strings are modelled as `List Char` (the inputs of interest are
ASCII, where JS UTF-16 code units and Lean characters coincide); character
indices as `Int`, because the chunker's arithmetic produces negative
intermediate offsets; the asynchronous language-model provider call as an
`Except` parameter (error = rejected promise); the stream of `uuidv4()`
identifiers as a function `Nat → String` giving the identifier drawn at each
call.  Loops whose termination is in question are indexed by fuel: a result
of `none` means the loop has not returned within that many iterations.  -/

namespace DocIntel

/-- Index normalisation of JavaScript `String.prototype.slice`: a negative
index counts from the end of the string, and the result is clamped to
`[0, len]`. -/
def jsSliceClamp (len : Nat) (i : Int) : Nat :=
  if i < 0 then (max ((len : Int) + i) 0).toNat else min i.toNat len

/-- Model of JavaScript `s.slice(st, en)` on strings: the characters from the
normalised `st` (inclusive) to the normalised `en` (exclusive); empty when
the normalised start is not below the normalised end. -/
def jsSlice (s : List Char) (st en : Int) : List Char :=
  (s.take (jsSliceClamp s.length en)).drop (jsSliceClamp s.length st)

/-- The fields of `Document` (src/core/types.ts) that the chunker reads:
its identifier and its full text content. -/
structure Document where
  id : String
  content : List Char
deriving Repr, DecidableEq

/-- `DocumentChunk` of src/core/types.ts, with `metadata.startChar` and
`metadata.endChar` inlined as fields. -/
structure DocumentChunk where
  id : String
  documentId : String
  content : List Char
  index : Nat
  startChar : Int
  endChar : Int
deriving Repr, DecidableEq

/-- The `while (startIndex < content.length)` loop of
`BaseProcessor.createChunks` (src/processors/BaseProcessor.ts lines 39-57),
indexed by fuel.  Per iteration the code computes
`endIndex = Math.min(startIndex + chunkSize, content.length)`, pushes the
chunk for `content.slice(startIndex, endIndex)`, and continues with
`startIndex = endIndex - overlap`.  `ids` is the stream of fresh `uuidv4()`
identifiers, indexed by the chunk counter.  `none` means the loop has not
finished within `fuel` iterations. -/
def createChunksGo (content : List Char) (chunkSize overlap : Int) (docId : String)
    (ids : Nat → String) : Nat → Int → Nat → List DocumentChunk → Option (List DocumentChunk)
  | 0, _, _, _ => none
  | fuel + 1, startIndex, chunkIndex, chunks =>
    if startIndex < (content.length : Int) then
      createChunksGo content chunkSize overlap docId ids fuel
        (min (startIndex + chunkSize) (content.length : Int) - overlap)
        (chunkIndex + 1)
        (chunks ++ [⟨ids chunkIndex, docId,
          jsSlice content startIndex (min (startIndex + chunkSize) (content.length : Int)),
          chunkIndex, startIndex, min (startIndex + chunkSize) (content.length : Int)⟩])
    else some chunks

/-- `BaseProcessor.createChunks document content chunkSize overlap`
(src/processors/BaseProcessor.ts lines 34-60; the JS defaults are
`chunkSize = 1000`, `overlap = 200`). -/
def createChunks (document : Document) (content : List Char) (chunkSize overlap : Int)
    (ids : Nat → String) (fuel : Nat) : Option (List DocumentChunk) :=
  createChunksGo content chunkSize overlap document.id ids fuel 0 0 []

/-- When one iteration of the chunking loop maps a start offset back to
itself, the loop never returns, whatever the fuel. -/
theorem createChunksGo_fixedpoint (content : List Char) (chunkSize overlap : Int)
    (docId : String) (ids : Nat → String) (s : Int)
    (h1 : s < (content.length : Int))
    (h2 : min (s + chunkSize) (content.length : Int) - overlap = s) :
    ∀ fuel chunkIndex chunks,
      createChunksGo content chunkSize overlap docId ids fuel s chunkIndex chunks = none := by
  intro fuel
  induction fuel with
  | zero => intro _ _; rfl
  | succ n ih =>
    intro chunkIndex chunks
    simp only [createChunksGo]
    rw [if_pos h1, h2]
    exact ih _ _

/-- C1: the claim states that for every content, window `W > 0` and overlap
`0 ≤ O < W`, `createChunks` terminates.  The code refutes it: with content
`"a"`, `W = 2`, `O = 1`, the single clamped chunk ends at offset 1 and the
next start offset is `1 - 1 = 0` again, so the `while` loop never exits —
for every fuel bound the loop is still running. -/
theorem createChunks_c1_nonterminating (d : Document) (ids : Nat → String) (fuel : Nat) :
    createChunks d ("a".data) 2 1 ids fuel = none :=
  createChunksGo_fixedpoint ("a".data) 2 1 d.id ids 0 (by decide) (by decide) fuel 0 []

/-- C2: the claim states that for `0 < length T ≤ W` and any `0 ≤ O < W` the
chunker returns exactly one chunk equal to `T`.  The code refutes it for
every positive overlap: with `T = "ab"`, `W = 3`, `O = 2`, the loop produces
the single full-content chunk and then resets the start offset to
`min(0 + 3, 2) - 2 = 0`, so the call never returns at all. -/
theorem createChunks_c2_nonterminating (d : Document) (ids : Nat → String) (fuel : Nat) :
    createChunks d ("ab".data) 3 2 ids fuel = none :=
  createChunksGo_fixedpoint ("ab".data) 3 2 d.id ids 0 (by decide) (by decide) fuel 0 []

/-- C6: the claim states that invoking the chunker with `O ≥ W` is rejected
as a configuration error before any chunk is produced.  The code has no such
validation (`createChunks` checks nothing, and `validateConfig` in
src/core/config.ts only checks for the presence of API keys): with content
`"ab"`, `W = 2`, `O = 2`, the call simply runs and never returns. -/
theorem createChunks_c6_no_rejection (d : Document) (ids : Nat → String) (fuel : Nat) :
    createChunks d ("ab".data) 2 2 ids fuel = none :=
  createChunksGo_fixedpoint ("ab".data) 2 2 d.id ids 0 (by decide) (by decide) fuel 0 []

/-- Everything of a chunk except its identifier, which is a fresh `uuidv4()`
value drawn at creation time. -/
def chunkShape (c : DocumentChunk) : String × List Char × Nat × Int × Int :=
  (c.documentId, c.content, c.index, c.startChar, c.endChar)

/-- The chunking loop is deterministic modulo the identifier stream: two runs
from accumulators equal up to identifiers stay equal up to identifiers. -/
theorem createChunksGo_shape (content : List Char) (chunkSize overlap : Int) (docId : String)
    (ids1 ids2 : Nat → String) :
    ∀ fuel s chunkIndex acc1 acc2, acc1.map chunkShape = acc2.map chunkShape →
      Option.map (List.map chunkShape)
          (createChunksGo content chunkSize overlap docId ids1 fuel s chunkIndex acc1)
        = Option.map (List.map chunkShape)
            (createChunksGo content chunkSize overlap docId ids2 fuel s chunkIndex acc2) := by
  intro fuel
  induction fuel with
  | zero => intro _ _ _ _ _; rfl
  | succ n ih =>
    intro s chunkIndex acc1 acc2 hacc
    by_cases h : s < (content.length : Int)
    · simp only [createChunksGo]
      rw [if_pos h, if_pos h]
      refine ih _ _ _ _ ?_
      simp [hacc, chunkShape]
    · simp only [createChunksGo]
      rw [if_neg h, if_neg h]
      simp [hacc]

/-- C7 (amended): chunking is deterministic in everything except the chunk
identifiers — two calls on the same `(text, window, overlap)` agree on
contents, indices, and start/end offsets (and on whether they return at
all), whatever identifier streams the two calls draw. -/
theorem createChunks_c7_deterministic_up_to_ids (d : Document) (content : List Char)
    (chunkSize overlap : Int) (ids1 ids2 : Nat → String) (fuel : Nat) :
    Option.map (List.map chunkShape) (createChunks d content chunkSize overlap ids1 fuel)
      = Option.map (List.map chunkShape) (createChunks d content chunkSize overlap ids2 fuel) :=
  createChunksGo_shape content chunkSize overlap d.id ids1 ids2 fuel 0 0 [] [] rfl

/-- C7 (counterexample): the claim as stated also requires identical chunk
identifiers across two separate calls.  Identifiers come from `uuidv4()`,
which draws fresh random values: two calls whose identifier streams differ
produce different chunk sequences already on content `"a"` with `W = 1`,
`O = 0` (a terminating configuration). -/
theorem createChunks_c7_ids_cex :
    createChunks ⟨"doc", "a".data⟩ ("a".data) 1 0 (fun _ => "uuid-a") 2
      ≠ createChunks ⟨"doc", "a".data⟩ ("a".data) 1 0 (fun _ => "uuid-b") 2 := by
  decide

/-- Model of JavaScript `toLowerCase()`; exact on the ASCII inputs of this
development. -/
def toLowerCase (s : List Char) : List Char := s.map Char.toLower

/-- Model of JavaScript `s.split(sep)` for a one-character separator: the
pieces between separator occurrences, empty pieces kept. -/
def jsSplitOn (sep : Char) (s : List Char) : List (List Char) :=
  List.splitOnP (fun c => c = sep) s

/-- Model of `content.split(/\s+/)`: the pieces between maximal whitespace
runs.  JS keeps a possibly-empty leading and trailing piece but produces no
interior empty pieces; splitting at every whitespace character instead
produces one interior empty piece per extra consecutive separator, so those
are removed here. -/
def jsSplitWsRuns (s : List Char) : List (List Char) :=
  match List.splitOnP (fun c => c.isWhitespace) s with
  | [] => []
  | [x] => [x]
  | x :: rest => x :: ((rest.dropLast.filter fun w => w.length != 0) ++ [rest.getLastD []])

/-- The insight record `BaseProcessor.generateInsights` returns
(src/processors/BaseProcessor.ts lines 62-72). -/
structure DocumentInsights where
  wordCount : Nat
  estimatedReadingTime : Nat
  language : List Char
deriving Repr, DecidableEq

/-- The common-word list of `BaseProcessor.detectLanguage`. -/
def englishWords : List (List Char) :=
  ["the".data, "and".data, "or".data, "but".data, "in".data, "on".data, "at".data,
   "to".data, "for".data, "of".data, "with".data, "by".data]

/-- `BaseProcessor.detectLanguage` (src/processors/BaseProcessor.ts lines
74-81).  The JS comparison `englishCount > words.length * 0.1` is modelled as
the exact order `words.length < 10 * englishCount` (the double `0.1` is not
exactly one tenth; no claim depends on this function). -/
def detectLanguage (content : List Char) : List Char :=
  if (jsSplitWsRuns (toLowerCase content)).length
      < 10 * ((jsSplitWsRuns (toLowerCase content)).filter
          fun w => englishWords.contains w).length
  then "english".data else "unknown".data

/-- `BaseProcessor.generateInsights` (src/processors/BaseProcessor.ts lines
62-72).  `content.split(/\s+/).filter(word => word.length > 0)` keeps exactly
the nonempty pieces, which equals splitting at every whitespace character and
filtering (the two splits differ only in empty pieces); `Math.ceil(wordCount
/ 200)` on a natural count is `(wordCount + 199) / 200`. -/
def generateInsights (content : List Char) : DocumentInsights :=
  { wordCount := ((List.splitOnP (fun c => c.isWhitespace) content).filter
      fun w => w.length != 0).length
    estimatedReadingTime := (((List.splitOnP (fun c => c.isWhitespace) content).filter
      fun w => w.length != 0).length + 199) / 200
    language := detectLanguage content }

/-- Counting automaton for the specification's "number of nonempty
whitespace-separated tokens": counts the maximal nonempty runs of
non-separator characters.  `afterSep` is true at the start of the text and
right after a separator. -/
def countTokensGo (p : Char → Bool) : Bool → List Char → Nat
  | _, [] => 0
  | afterSep, c :: rest =>
    if p c then countTokensGo p true rest
    else (if afterSep then 1 else 0) + countTokensGo p false rest

/-- The specification's word count: the number of maximal nonempty runs of
non-whitespace characters. -/
def countTokens (s : List Char) : Nat := countTokensGo (fun c => c.isWhitespace) true s

/-- Whether the text begins with a non-separator character. -/
def headNonSep (p : Char → Bool) : List Char → Bool
  | [] => false
  | c :: _ => !p c

/-- The head piece of `splitOnP` is nonempty exactly when the text begins
with a non-separator character. -/
theorem splitOnP_head_nonempty (p : Char → Bool) :
    ∀ (s t : List Char) (ts : List (List Char)),
      List.splitOnP p s = t :: ts → (t.length != 0) = headNonSep p s := by
  intro s t ts h
  cases s with
  | nil =>
    rw [List.splitOnP_nil] at h
    cases h
    rfl
  | cons c rest =>
    rw [List.splitOnP_cons] at h
    by_cases hc : p c = true
    · rw [if_pos hc] at h
      cases h
      simp [headNonSep, hc]
    · rw [if_neg hc] at h
      cases h2 : List.splitOnP p rest with
      | nil => exact absurd h2 (List.splitOnP_ne_nil p rest)
      | cons t0 ts0 =>
        rw [h2] at h
        simp only [List.modifyHead] at h
        cases h
        have hc2 : p c = false := by
          cases hpc : p c
          · rfl
          · exact absurd hpc hc
        simp [headNonSep, hc2]


/-- Splitting at every separator character and keeping the nonempty pieces
counts exactly the maximal nonempty non-separator runs.  The second conjunct
is the invariant for a scan that is mid-run: the head piece, when nonempty,
is the continuation of the current run and must not be counted again. -/
theorem splitOnP_filter_length (p : Char → Bool) :
    ∀ s : List Char,
      ((List.splitOnP p s).filter (fun w => w.length != 0)).length
          = countTokensGo p true s
      ∧ ((List.splitOnP p s).filter (fun w => w.length != 0)).length
          = countTokensGo p false s + (if headNonSep p s = true then 1 else 0) := by
  intro s
  induction s with
  | nil =>
    constructor
    · rfl
    · rfl
  | cons c rest ih =>
    by_cases hc : p c = true
    · have hsplit : List.splitOnP p (c :: rest) = [] :: List.splitOnP p rest := by
        rw [List.splitOnP_cons, if_pos hc]
      have hL : ((List.splitOnP p (c :: rest)).filter (fun w => w.length != 0)).length
          = ((List.splitOnP p rest).filter (fun w => w.length != 0)).length := by
        rw [hsplit, List.filter_cons]
        simp
      have hstep : ∀ b, countTokensGo p b (c :: rest) = countTokensGo p true rest := by
        intro b
        simp [countTokensGo, hc]
      constructor
      · rw [hL, hstep, ih.1]
      · rw [hL, hstep, ih.1]
        simp [headNonSep, hc]
    · have hc2 : p c = false := by
        cases hpc : p c
        · rfl
        · exact absurd hpc hc
      obtain ⟨t0, ts0, h2⟩ : ∃ t0 ts0, List.splitOnP p rest = t0 :: ts0 := by
        cases h2 : List.splitOnP p rest with
        | nil => exact absurd h2 (List.splitOnP_ne_nil p rest)
        | cons t0 ts0 => exact ⟨t0, ts0, rfl⟩
      have hsplit : List.splitOnP p (c :: rest) = (c :: t0) :: ts0 := by
        rw [List.splitOnP_cons, if_neg hc, h2]
        rfl
      have hhead : (t0.length != 0) = headNonSep p rest :=
        splitOnP_head_nonempty p rest t0 ts0 h2
      have hL : ((List.splitOnP p (c :: rest)).filter (fun w => w.length != 0)).length
          = 1 + ((ts0.filter (fun w => w.length != 0)).length) := by
        rw [hsplit, List.filter_cons]
        simp
        omega
      have hLrest : ((List.splitOnP p rest).filter (fun w => w.length != 0)).length
          = (if headNonSep p rest = true then 1 else 0)
              + (ts0.filter (fun w => w.length != 0)).length := by
        rw [h2, List.filter_cons, ← hhead]
        by_cases ht : (t0.length != 0) = true
        · rw [if_pos ht, if_pos ht]
          simp
          omega
        · rw [if_neg ht, if_neg ht]
          simp
      have hts : (ts0.filter (fun w => w.length != 0)).length
          = countTokensGo p false rest := by
        have := ih.2
        rw [hLrest] at this
        omega
      constructor
      · rw [hL, hts]
        simp [countTokensGo, hc2, Nat.add_comm]
      · rw [hL, hts]
        simp [countTokensGo, hc2, headNonSep, Nat.add_comm]

/-- C9: for every text, `generateInsights` returns as `wordCount` the number
of nonempty whitespace-separated tokens and as `estimatedReadingTime` the
ceiling of `wordCount / 200`; on the empty string it returns word count 0 and
reading time 0 (and language "unknown") without error. -/
theorem generateInsights_c9 :
    (∀ content : List Char,
        (generateInsights content).wordCount = countTokens content
        ∧ (generateInsights content).estimatedReadingTime
            = (generateInsights content).wordCount ⌈/⌉ 200)
    ∧ generateInsights ("".data) = ⟨0, 0, ("unknown".data)⟩ := by
  constructor
  · intro content
    constructor
    · exact (splitOnP_filter_length (fun c => c.isWhitespace) content).1
    · rw [Nat.ceilDiv_eq_add_pred_div]
      show (_ + 199) / 200 = (_ + 200 - 1) / 200
      congr 1
  · decide

/-- Non-overlapping left-to-right occurrence count, indexed by fuel (one unit
per scanned position, so the text length is always enough fuel).  After a
match the scan resumes past the matched characters, as JS global regex
matching does. -/
def countOccsGo (pattern : List Char) : Nat → List Char → Nat
  | 0, _ => 0
  | _ + 1, [] => 0
  | fuel + 1, c :: rest =>
    if pattern.isPrefixOf (c :: rest) then
      1 + countOccsGo pattern fuel (rest.drop (pattern.length - 1))
    else countOccsGo pattern fuel rest

/-- Model of `(content.match(new RegExp(word, 'g')) || []).length` for a word
free of regex metacharacters, where the pattern matches literally: the number
of non-overlapping occurrences.  The empty word matches at every position,
giving `length + 1` as in JS. -/
def countOccs (pattern text : List Char) : Nat :=
  if pattern.isEmpty then text.length + 1 else countOccsGo pattern text.length text

/-- A chunk and its keyword-match score, as built inside
`InsightAnalyzer.findSimilarConcepts`. -/
structure ScoredChunk where
  chunk : DocumentChunk
  score : Nat
deriving Repr, DecidableEq

/-- The score reduction of `InsightAnalyzer.findSimilarConcepts`
(src/analyzers/InsightAnalyzer.ts lines 108-116): the sum over the query
words of the occurrence count in the lowercased chunk content. -/
def chunkScore (queryWords : List (List Char)) (c : DocumentChunk) : Nat :=
  queryWords.foldl (fun acc w => acc + countOccs w (toLowerCase c.content)) 0

/-- The ranking tail of `findSimilarConcepts`: keep positive scores, sort
descending by score (JS `Array.prototype.sort` is stable, modelled by a
stable merge sort preferring the earlier element on ties), truncate to 5,
and project the chunks back out. -/
def rankAndTake (scored : List ScoredChunk) : List DocumentChunk :=
  ((((scored.filter fun i => 0 < i.score).mergeSort
      fun a b => b.score ≤ a.score).take 5).map ScoredChunk.chunk)

/-- `InsightAnalyzer.findSimilarConcepts` (src/analyzers/InsightAnalyzer.ts
lines 104-123).  The query is lowercased and split on the single space
character (`query.toLowerCase().split(' ')`, empty pieces kept); each word is
passed to `new RegExp(word, 'g')`, which for words without metacharacters is
literal substring matching as modelled by `countOccs`. -/
def findSimilarConcepts (chunks : List DocumentChunk) (query : List Char) : List DocumentChunk :=
  rankAndTake (chunks.map fun c =>
    ScoredChunk.mk c (chunkScore (jsSplitOn ' ' (toLowerCase query)) c))

/-- Modelled from the spec for refinement comparison: "tokenize the query on
whitespace" — tokens are the nonempty whitespace-separated pieces of the
lowercased query; scoring and ranking as in the contract. -/
def specQueryTokens (query : List Char) : List (List Char) :=
  (List.splitOnP (fun c => c.isWhitespace) (toLowerCase query)).filter fun w => w.length != 0

/-- Modelled from the spec for refinement comparison: retrieval with
whitespace tokenization and literal substring counts, ranked like the code. -/
def specFindSimilarConcepts (chunks : List DocumentChunk) (query : List Char) :
    List DocumentChunk :=
  rankAndTake (chunks.map fun c => ScoredChunk.mk c (chunkScore (specQueryTokens query) c))

/-- Evaluation helper: once the positively-scored list is known and already
sorted, the ranking is just truncation and projection. -/
theorem rankAndTake_eval (scored l : List ScoredChunk)
    (h1 : (scored.filter fun i => 0 < i.score) = l)
    (h2 : List.Pairwise (fun a b => (decide (b.score ≤ a.score)) = true) l) :
    rankAndTake scored = (l.take 5).map ScoredChunk.chunk := by
  unfold rankAndTake
  rw [h1, List.mergeSort_of_sorted h2]

/-- Chunks used by the specification's retrieval example. -/
def exChunk1 : DocumentChunk := ⟨"c1", "doc", "the cat sat".data, 0, 0, 11⟩

/-- Second chunk of the retrieval example. -/
def exChunk2 : DocumentChunk := ⟨"c2", "doc", "the dog ran".data, 1, 0, 11⟩

/-- Third chunk of the retrieval example. -/
def exChunk3 : DocumentChunk := ⟨"c3", "doc", "birds fly".data, 2, 0, 9⟩

/-- C3 (counterexample): the claim tokenizes every query on whitespace, but
the code splits on the space character only.  For the query "cat&#9;dog"
(tab-separated) the claim's reading scores chunk "the cat sat" as 1 and
returns it, while the code forms the single token "cat&#9;dog", scores 0,
and returns nothing. -/
theorem findSimilarConcepts_c3_cex :
    findSimilarConcepts [exChunk1] ("cat\tdog".data) = []
      ∧ specFindSimilarConcepts [exChunk1] ("cat\tdog".data) = [exChunk1] := by
  constructor
  · show rankAndTake ([exChunk1].map fun c =>
        ScoredChunk.mk c (chunkScore (jsSplitOn ' ' (toLowerCase ("cat\tdog".data))) c)) = []
    exact (rankAndTake_eval _ [] (by decide) (by decide)).trans rfl
  · show rankAndTake ([exChunk1].map fun c =>
        ScoredChunk.mk c (chunkScore (specQueryTokens ("cat\tdog".data)) c)) = [exChunk1]
    exact (rankAndTake_eval _ [ScoredChunk.mk exChunk1 1] (by decide) (by decide)).trans rfl

/-- C3 (amended): retrieval scores each chunk as the sum over
space-character-separated query tokens (not general whitespace) of
case-insensitive occurrence counts, each token being used as a regex pattern
(which equals literal substring counting for metacharacter-free tokens);
only chunks with positive score are returned, stable-sorted descending and
truncated to 5.  The concrete cat/dog example behaves as claimed, and in
general the result has at most 5 chunks, each drawn from the input with a
positive score. -/
theorem findSimilarConcepts_c3_amended :
    findSimilarConcepts [exChunk1, exChunk2, exChunk3] ("cat dog".data) = [exChunk1, exChunk2]
    ∧ ∀ (chunks : List DocumentChunk) (query : List Char),
        (findSimilarConcepts chunks query).length ≤ 5
        ∧ ∀ c ∈ findSimilarConcepts chunks query,
            c ∈ chunks ∧ 0 < chunkScore (jsSplitOn ' ' (toLowerCase query)) c := by
  constructor
  · show rankAndTake ([exChunk1, exChunk2, exChunk3].map fun c =>
        ScoredChunk.mk c (chunkScore (jsSplitOn ' ' (toLowerCase ("cat dog".data))) c))
      = [exChunk1, exChunk2]
    exact (rankAndTake_eval _ [ScoredChunk.mk exChunk1 1, ScoredChunk.mk exChunk2 1]
      (by decide) (by decide)).trans rfl
  · intro chunks query
    constructor
    · unfold findSimilarConcepts rankAndTake
      rw [List.length_map, List.length_take]
      exact le_trans (Nat.min_le_left _ _) (le_refl 5)
    · intro c hc
      unfold findSimilarConcepts rankAndTake at hc
      rw [List.mem_map] at hc
      obtain ⟨item, hitem, hchunk⟩ := hc
      have h2 := List.mem_of_mem_take hitem
      have h3 := (List.mergeSort_perm _ _).mem_iff.mp h2
      rw [List.mem_filter] at h3
      obtain ⟨h4, h5⟩ := h3
      rw [List.mem_map] at h4
      obtain ⟨c0, hc0, hmk⟩ := h4
      have hcc : c = c0 := by
        rw [← hchunk, ← hmk]
      subst hcc
      refine ⟨hc0, ?_⟩
      have h6 : 0 < item.score := of_decide_eq_true h5
      rw [← hmk] at h6
      exact h6

/-- Whether a character lies in the regex character class `[•\-\d+\.]`:
a bullet, a hyphen, a digit, a plus sign or a dot (inside a class, `\d+\.`
is read as the three alternatives digit, `+`, `.`). -/
def bulletClassChar (c : Char) : Bool :=
  c = '•' || c = '-' || c.isDigit || c = '+' || c = '.'

/-- The capture of a JS regex tail `\s*(.+)` run against `rest`: greedy
whitespace, then a nonempty remainder; when `rest` is all whitespace the
engine backtracks one character so the capture is the last whitespace
character; when `rest` is empty the tail cannot match. -/
def captureTail (rest : List Char) : Option (List Char) :=
  if rest.length = 0 then none
  else if (rest.takeWhile Char.isWhitespace).length < rest.length then
    some (rest.drop (rest.takeWhile Char.isWhitespace).length)
  else some (rest.drop (rest.length - 1))

/-- Model of `line.match(/[•\-\d+\.]\s*(.+)/)`, returning the first capture
group: the match starts at the first class character that is not the line's
last character (the unanchored regex scans left to right; a position with
nothing after the class character cannot complete `(.+)`). -/
def bulletCapture : List Char → Option (List Char)
  | [] => none
  | c :: rest =>
    if bulletClassChar c && rest.length != 0 then captureTail rest
    else bulletCapture rest

/-- Model of `line.match(/^\d+\./)` as a Bool: one or more leading digits
followed by a dot. -/
def startsNumberDot (line : List Char) : Bool :=
  (line.takeWhile Char.isDigit).length != 0
    && ((line.drop (line.takeWhile Char.isDigit).length).head? == some '.')

/-- Model of JavaScript `trim()`: strip whitespace from both ends. -/
def trimChars (s : List Char) : List Char :=
  ((s.dropWhile Char.isWhitespace).reverse.dropWhile Char.isWhitespace).reverse

/-- Model of `haystack.includes(needle)`: literal substring containment. -/
def containsSub (needle : List Char) : List Char → Bool
  | [] => needle.isEmpty
  | c :: rest => needle.isPrefixOf (c :: rest) || containsSub needle rest

/-- The line scan of `InsightAnalyzer.extractListFromText`
(src/analyzers/InsightAnalyzer.ts lines 207-229): a line containing the
section name (case-insensitively) opens the section; inside the section a
line matching the bullet pattern contributes its trimmed capture; a blank
line or a `^\d+\.` line that fails the bullet pattern closes the section. -/
def extractListGo (listName : List Char) : Bool → List (List Char) → List (List Char)
  | _, [] => []
  | inSection, line :: rest =>
    if containsSub (toLowerCase listName) (toLowerCase line) then
      extractListGo listName true rest
    else if inSection then
      match bulletCapture line with
      | some cap => trimChars cap :: extractListGo listName true rest
      | none =>
        if (trimChars line).isEmpty || startsNumberDot line then
          extractListGo listName false rest
        else extractListGo listName true rest
    else extractListGo listName false rest

/-- `InsightAnalyzer.extractListFromText text listName`. -/
def extractListFromText (text listName : List Char) : List (List Char) :=
  extractListGo listName false (jsSplitOn '\n' text)

/-- The provider output of the fallback-parsing example. -/
def kwInput : List Char := ("Keywords: \n1. foo\n2. bar").data

/-- C5 (amended): on the malformed output `"Keywords: "` / `"1. foo"` /
`"2. bar"` the fallback scanner returns `". foo"` and `". bar"` — the
character class `[•\-\d+\.]` consumes only the digit, `\s*` matches nothing
because a dot follows, and `(.+)` captures the rest of the line including
the dot and the space, which `trim()` does not remove. -/
theorem extractList_c5_actual :
    extractListFromText kwInput ("keywords".data) = [(". foo".data), (". bar".data)] := by
  decide

/-- C5 (counterexample): the fallback scanner does not return
`["foo", "bar"]` on the example input — the leading `". "` of each item
survives the capture. -/
theorem extractList_c5_cex :
    extractListFromText kwInput ("keywords".data) ≠ [("foo".data), ("bar".data)] := by
  decide

/-- JSON values as produced by `JSON.parse`.  Numbers are modelled as
integers: the responses the claims concern carry only integer numbers
(fractional and exponent forms are not modelled, so this parser fails where
`JSON.parse` would return a non-integer — never the case in the inputs used
here). -/
inductive Json where
  | null
  | bool (b : Bool)
  | num (n : Int)
  | str (s : List Char)
  | arr (elems : List Json)
  | obj (fields : List (List Char × Json))

/-- JSON whitespace. -/
def jsonWs (c : Char) : Bool :=
  c = ' ' || c = '\t' || c = '\n' || c = '\r'

/-- Skip JSON whitespace. -/
def skipWs (s : List Char) : List Char := s.dropWhile jsonWs

/-- Value of a hexadecimal digit. -/
def hexVal (c : Char) : Option Nat :=
  if c.isDigit then some (c.toNat - 48)
  else if 'a' ≤ c && c ≤ 'f' then some (c.toNat - 87)
  else if 'A' ≤ c && c ≤ 'F' then some (c.toNat - 55)
  else none

/-- Numeric value of a digit run (JS `parseInt` on a digit-only run). -/
def digitsToNat (ds : List Char) : Nat :=
  ds.foldl (fun acc c => 10 * acc + (c.toNat - 48)) 0

/-- JSON string body parser: characters after the opening quote, with the
common escapes and `\uXXXX` (no surrogate pairing).  A raw control character
(U+0000..U+001F) is rejected, as `JSON.parse` rejects it.  Returns the
decoded characters and the remainder after the closing quote. -/
def parseStrGo : Nat → List Char → List Char → Option (List Char × List Char)
  | 0, _, _ => none
  | _ + 1, acc, '"' :: rest => some (acc.reverse, rest)
  | fuel + 1, acc, '\\' :: c :: rest =>
    match c with
    | '"' => parseStrGo fuel ('"' :: acc) rest
    | '\\' => parseStrGo fuel ('\\' :: acc) rest
    | '/' => parseStrGo fuel ('/' :: acc) rest
    | 'b' => parseStrGo fuel ('\x08' :: acc) rest
    | 'f' => parseStrGo fuel ('\x0c' :: acc) rest
    | 'n' => parseStrGo fuel ('\n' :: acc) rest
    | 'r' => parseStrGo fuel ('\r' :: acc) rest
    | 't' => parseStrGo fuel ('\t' :: acc) rest
    | 'u' =>
      match rest with
      | h1 :: h2 :: h3 :: h4 :: rest2 =>
        match hexVal h1, hexVal h2, hexVal h3, hexVal h4 with
        | some a, some b, some c2, some d =>
          parseStrGo fuel (Char.ofNat (4096 * a + 256 * b + 16 * c2 + d) :: acc) rest2
        | _, _, _, _ => none
      | _ => none
    | _ => none
  | fuel + 1, acc, c :: rest =>
    if c.toNat < 32 then none else parseStrGo fuel (c :: acc) rest
  | _ + 1, _, [] => none

/-- Parser for the members of a JSON object, called after the opening brace;
`pv` parses one value.  `first` is true only before any member has been
read, so `{}` is accepted but `{"k": v,}` is not. -/
def parseObjGo (pv : List Char → Option (Json × List Char)) :
    Nat → Bool → List (List Char × Json) → List Char → Option (Json × List Char)
  | 0, _, _, _ => none
  | fuel + 1, first, acc, s =>
    match skipWs s with
    | '}' :: rest => if first then some (Json.obj acc.reverse, rest) else none
    | '"' :: rest =>
      match parseStrGo (rest.length + 1) [] rest with
      | some (key, rest2) =>
        match skipWs rest2 with
        | ':' :: rest3 =>
          match pv rest3 with
          | some (v, rest4) =>
            match skipWs rest4 with
            | ',' :: rest5 => parseObjGo pv fuel false ((key, v) :: acc) rest5
            | '}' :: rest5 => some (Json.obj ((key, v) :: acc).reverse, rest5)
            | _ => none
          | none => none
        | _ => none
      | none => none
    | _ => none

/-- Parser for the elements of a JSON array, called after the opening
bracket. -/
def parseArrGo (pv : List Char → Option (Json × List Char)) :
    Nat → Bool → List Json → List Char → Option (Json × List Char)
  | 0, _, _, _ => none
  | fuel + 1, first, acc, s =>
    match skipWs s with
    | ']' :: rest =>
      if first then some (Json.arr acc.reverse, rest)
      else none
    | s2 =>
      match pv s2 with
      | some (v, rest) =>
        match skipWs rest with
        | ',' :: rest2 => parseArrGo pv fuel false (v :: acc) rest2
        | ']' :: rest2 => some (Json.arr (v :: acc).reverse, rest2)
        | _ => none
      | none => none

/-- The leading JSON integer of the input: a nonempty digit run without a
redundant leading zero (`JSON.parse` rejects `012`), with its value and the
remainder. -/
def jsonIntRun (s : List Char) : Option (Nat × List Char) :=
  if (s.takeWhile Char.isDigit).length = 0 then none
  else if ((s.takeWhile Char.isDigit).head? == some '0')
      && (s.takeWhile Char.isDigit).length != 1 then none
  else some (digitsToNat (s.takeWhile Char.isDigit), s.drop (s.takeWhile Char.isDigit).length)

/-- Parser for one JSON value (fuel-indexed; the input length plus one is
always enough fuel). -/
def parseJsonVal : Nat → List Char → Option (Json × List Char)
  | 0, _ => none
  | fuel + 1, s =>
    match skipWs s with
    | '{' :: rest => parseObjGo (fun t => parseJsonVal fuel t) (rest.length + 1) true [] rest
    | '[' :: rest => parseArrGo (fun t => parseJsonVal fuel t) (rest.length + 1) true [] rest
    | '"' :: rest => (parseStrGo (rest.length + 1) [] rest).map fun p => (Json.str p.1, p.2)
    | 'n' :: 'u' :: 'l' :: 'l' :: rest => some (Json.null, rest)
    | 't' :: 'r' :: 'u' :: 'e' :: rest => some (Json.bool true, rest)
    | 'f' :: 'a' :: 'l' :: 's' :: 'e' :: rest => some (Json.bool false, rest)
    | '-' :: rest => (jsonIntRun rest).map fun p => (Json.num (-(p.1 : Int)), p.2)
    | s2 => (jsonIntRun s2).map fun p => (Json.num (p.1 : Int), p.2)

/-- Model of `JSON.parse`: one value, with nothing but whitespace after it. -/
def jsonParse (s : List Char) : Option Json :=
  match parseJsonVal (s.length + 1) s with
  | some (v, rest) => if (skipWs rest).isEmpty then some v else none
  | none => none

/-- Model of `response.match(/\{[\s\S]*\}/)`: the substring from the first
`{` to the last `}`, provided the latter comes after the former. -/
def extractBraced (s : List Char) : Option (List Char) :=
  match List.findIdx? (fun c => c = '{') s with
  | none => none
  | some i =>
    match List.findIdx? (fun c => c = '}') s.reverse with
    | none => none
    | some k =>
      if i < s.length - 1 - k then some ((s.drop i).take (s.length - 1 - k - i + 1))
      else none

/-- The combined regex-then-parse step of the response parsers: `some` only
when the response contains a braced candidate that `JSON.parse` accepts;
both a missing candidate and a parse error lead to the fallback branch. -/
def extractParse (response : List Char) : Option Json :=
  (extractBraced response).bind jsonParse

/-- Property access on a parsed JSON value: `parsed.key` is the value of the
last binding of `key` (as `JSON.parse` keeps the last duplicate), `none`
when absent or when the value is not an object. -/
def Json.getField : Json → List Char → Option Json
  | Json.obj fields, key => fields.foldl (fun acc f => if f.1 = key then some f.2 else acc) none
  | _, _ => none

/-- JavaScript truthiness of a JSON value (an absent property is `undefined`,
handled by the `Option` in `jsOr`). -/
def Json.truthy : Json → Bool
  | Json.null => false
  | Json.bool b => b
  | Json.num n => n != 0
  | Json.str s => !s.isEmpty
  | Json.arr _ => true
  | Json.obj _ => true

/-- Model of `x || dflt` applied to a property lookup. -/
def jsOr (v : Option Json) (dflt : Json) : Json :=
  match v with
  | some j => if j.truthy then j else dflt
  | none => dflt

/-- The result record of `InsightAnalyzer.extractKeywords`.  The TS interface
declares `string[]` fields, but the values flow unchecked from `JSON.parse`,
so they are modelled as JSON values. -/
structure KeywordExtractionResult where
  keywords : Json
  entities : Json
  topics : Json
  concepts : Json

/-- The result record of `InsightAnalyzer.analyzeInsights`, fields modelled
as JSON values for the same reason. -/
structure InsightAnalysisResult where
  sentiment : Json
  topics : Json
  complexity : Json
  readabilityScore : Json
  keyInsights : Json
  recommendations : Json

/-- `InsightAnalyzer.parseKeywordResponse` (src/analyzers/InsightAnalyzer.ts
lines 152-176): extract the braced candidate, `JSON.parse` it, default each
missing/falsy field with `||`; when either step fails, fall back to the
line-oriented scan for each field. -/
def parseKeywordResponse (response : List Char) : KeywordExtractionResult :=
  match extractParse response with
  | some parsed =>
    { keywords := jsOr (parsed.getField ("keywords".data)) (Json.arr [])
      entities := jsOr (parsed.getField ("entities".data)) (Json.arr [])
      topics := jsOr (parsed.getField ("topics".data)) (Json.arr [])
      concepts := jsOr (parsed.getField ("concepts".data)) (Json.arr []) }
  | none =>
    { keywords := Json.arr ((extractListFromText response ("keywords".data)).map Json.str)
      entities := Json.arr ((extractListFromText response ("entities".data)).map Json.str)
      topics := Json.arr ((extractListFromText response ("topics".data)).map Json.str)
      concepts := Json.arr ((extractListFromText response ("concepts".data)).map Json.str) }

/-- `InsightAnalyzer.parseInsightResponse` (src/analyzers/InsightAnalyzer.ts
lines 178-205): like the keyword parser but with constant defaults in the
fallback branch. -/
def parseInsightResponse (response : List Char) : InsightAnalysisResult :=
  match extractParse response with
  | some parsed =>
    { sentiment := jsOr (parsed.getField ("sentiment".data)) (Json.str ("neutral".data))
      topics := jsOr (parsed.getField ("topics".data)) (Json.arr [])
      complexity := jsOr (parsed.getField ("complexity".data)) (Json.str ("medium".data))
      readabilityScore := jsOr (parsed.getField ("readabilityScore".data)) (Json.num 50)
      keyInsights := jsOr (parsed.getField ("keyInsights".data)) (Json.arr [])
      recommendations := jsOr (parsed.getField ("recommendations".data)) (Json.arr []) }
  | none =>
    ⟨Json.str ("neutral".data), Json.arr [], Json.str ("medium".data),
      Json.num 50, Json.arr [], Json.arr []⟩

/-- C8: for any response whose braced candidate parses as JSON, each field
absent from the parsed object — independently of which other fields are
present — comes out as its explicit default: empty list for the four
keyword-extraction fields and for topics, key insights and recommendations,
"neutral" sentiment, "medium" complexity, readability score 50.  (Both
parsers are total functions of the response — the model of "never raises an
error for malformed provider output"; when no JSON is found the fallback
branches produce the same defaults or the line scan.) -/
theorem parseResponses_c8 (response : List Char) (parsed : Json)
    (hp : extractParse response = some parsed) :
    (parsed.getField ("keywords".data) = none →
        (parseKeywordResponse response).keywords = Json.arr [])
    ∧ (parsed.getField ("entities".data) = none →
        (parseKeywordResponse response).entities = Json.arr [])
    ∧ (parsed.getField ("topics".data) = none →
        (parseKeywordResponse response).topics = Json.arr [])
    ∧ (parsed.getField ("concepts".data) = none →
        (parseKeywordResponse response).concepts = Json.arr [])
    ∧ (parsed.getField ("sentiment".data) = none →
        (parseInsightResponse response).sentiment = Json.str ("neutral".data))
    ∧ (parsed.getField ("topics".data) = none →
        (parseInsightResponse response).topics = Json.arr [])
    ∧ (parsed.getField ("complexity".data) = none →
        (parseInsightResponse response).complexity = Json.str ("medium".data))
    ∧ (parsed.getField ("readabilityScore".data) = none →
        (parseInsightResponse response).readabilityScore = Json.num 50)
    ∧ (parsed.getField ("keyInsights".data) = none →
        (parseInsightResponse response).keyInsights = Json.arr [])
    ∧ (parsed.getField ("recommendations".data) = none →
        (parseInsightResponse response).recommendations = Json.arr []) := by
  refine ⟨fun h => ?_, fun h => ?_, fun h => ?_, fun h => ?_, fun h => ?_,
    fun h => ?_, fun h => ?_, fun h => ?_, fun h => ?_, fun h => ?_⟩
  all_goals simp [parseKeywordResponse, parseInsightResponse, hp, h, jsOr]

/-- A provider response whose JSON object carries the keywords field and
none of the other expected fields. -/
def kwJsonMixed : List Char := ("\x7b\"keywords\": [\"a\", \"b\"]\x7d").data

/-- The parsed value of `kwJsonMixed`. -/
def kwJsonMixedParsed : Json :=
  Json.obj [(("keywords".data), Json.arr [Json.str ("a".data), Json.str ("b".data)])]

/-- Witness for C8 at a concrete mixed response: in `{"keywords": ["a","b"]}`
the present keywords field passes through as `["a", "b"]` while the absent
fields default independently. -/
theorem parseResponses_c8_witness :
    (parseKeywordResponse kwJsonMixed).keywords
        = Json.arr [Json.str ("a".data), Json.str ("b".data)]
    ∧ (parseKeywordResponse kwJsonMixed).entities = Json.arr []
    ∧ (parseInsightResponse kwJsonMixed).sentiment = Json.str ("neutral".data)
    ∧ (parseInsightResponse kwJsonMixed).readabilityScore = Json.num 50 :=
  ⟨rfl,
   (parseResponses_c8 kwJsonMixed kwJsonMixedParsed rfl).2.1 rfl,
   (parseResponses_c8 kwJsonMixed kwJsonMixedParsed rfl).2.2.2.2.1 rfl,
   (parseResponses_c8 kwJsonMixed kwJsonMixedParsed rfl).2.2.2.2.2.2.2.1 rfl⟩

/-- `SummaryResult` of SummaryAnalyzer. -/
structure SummaryResult where
  summary : List Char
  keyPoints : List (List Char)
  wordCount : Nat
  confidence : Nat
deriving Repr, DecidableEq

/-- The running state of the line scan in
`SummaryAnalyzer.parseSummaryResponse`: the accumulated summary text (with
its trailing separator spaces), the key points, the confidence (default 8),
and whether `currentSection` is `keypoints`. -/
structure SummaryScan where
  summary : List Char
  keyPoints : List (List Char)
  confidence : Nat
  inKeyPoints : Bool
deriving Repr, DecidableEq

/-- The first maximal digit run of the line, as matched by `/(\d+)/` and
converted by `parseInt`; `none` when the line has no digit. -/
def firstDigitRun : List Char → Option Nat
  | [] => none
  | c :: rest =>
    if c.isDigit then some (digitsToNat (c :: rest.takeWhile Char.isDigit))
    else firstDigitRun rest

/-- Model of `line.replace(/^\d+\.\s*/, '')`. -/
def stripNumDot (line : List Char) : List Char :=
  if (line.takeWhile Char.isDigit).length != 0
      && ((line.drop (line.takeWhile Char.isDigit).length).head? == some '.') then
    (line.drop ((line.takeWhile Char.isDigit).length + 1)).dropWhile Char.isWhitespace
  else line

/-- Model of `line.replace(/^[•-]\s*/, '')`. -/
def stripBullet : List Char → List Char
  | [] => []
  | c :: rest => if c = '•' || c = '-' then rest.dropWhile Char.isWhitespace else c :: rest

/-- One line of the scan in `SummaryAnalyzer.parseSummaryResponse`
(src/unnamed/part_001 lines 112-133): a "key points"/"main points" line
switches the section; a "confidence" line updates the confidence from its
first digit run; otherwise the line is appended to the summary (with a
trailing space) or, in the key-points section, pushed as a stripped key
point when it starts with a number-dot, a bullet or a hyphen. -/
def summaryStep (st : SummaryScan) (line : List Char) : SummaryScan :=
  if containsSub ("key points".data) (toLowerCase line)
      || containsSub ("main points".data) (toLowerCase line) then
    { st with inKeyPoints := true }
  else if containsSub ("confidence".data) (toLowerCase line) then
    match firstDigitRun line with
    | some n => { st with confidence := n }
    | none => st
  else if !st.inKeyPoints then
    { st with summary := st.summary ++ line ++ (" ".data) }
  else if startsNumberDot line
      || line.head? == some '•' || line.head? == some '-' then
    { st with keyPoints := st.keyPoints ++ [stripBullet (stripNumDot line)] }
  else st

/-- The scan over the nonblank lines of the response, from the initial state
(empty summary, no key points, confidence 8, summary section). -/
def summaryScanResult (response : List Char) : SummaryScan :=
  ((jsSplitOn '\n' response).filter fun l => !(trimChars l).isEmpty).foldl
    summaryStep ⟨[], [], 8, false⟩

/-- `SummaryAnalyzer.parseSummaryResponse` (src/unnamed/part_001 lines
103-141).  `wordCount` splits the accumulated summary before trimming, as the
code does. -/
def parseSummaryResponse (response : List Char) : SummaryResult :=
  { summary := trimChars (summaryScanResult response).summary
    keyPoints := (summaryScanResult response).keyPoints
    wordCount := (jsSplitOn ' ' (summaryScanResult response).summary).length
    confidence := min 10 (max 1 (summaryScanResult response).confidence) }

/-- C10: the confidence of every parsed summary lies in 1..10 — the final
`Math.min(10, Math.max(1, confidence))` clamps whatever the scan produced;
a response that never mentions confidence keeps the default 8, and an
out-of-range stated confidence (42) is clamped to 10. -/
theorem parseSummaryResponse_c10 :
    (∀ response : List Char,
        1 ≤ (parseSummaryResponse response).confidence
        ∧ (parseSummaryResponse response).confidence ≤ 10)
    ∧ (parseSummaryResponse ("A plain summary with no rating.".data)).confidence = 8
    ∧ (parseSummaryResponse ("Confidence: 42".data)).confidence = 10 := by
  refine ⟨fun response => ?_, by decide, by decide⟩
  show 1 ≤ min 10 (max 1 (summaryScanResult response).confidence)
      ∧ min 10 (max 1 (summaryScanResult response).confidence) ≤ 10
  omega

/-- `InsightAnalyzer.extractKeywords` (src/analyzers/InsightAnalyzer.ts lines
27-60), with the awaited provider call abstracted as an `Except` argument:
a rejected promise is caught and the empty result returned. -/
def extractKeywords (llmResponse : Except (List Char) (List Char)) : KeywordExtractionResult :=
  match llmResponse with
  | Except.ok content => parseKeywordResponse content
  | Except.error _ => ⟨Json.arr [], Json.arr [], Json.arr [], Json.arr []⟩

/-- `InsightAnalyzer.analyzeInsights` (src/analyzers/InsightAnalyzer.ts lines
62-102): a provider error is caught and the constant default returned. -/
def analyzeInsights (llmResponse : Except (List Char) (List Char)) : InsightAnalysisResult :=
  match llmResponse with
  | Except.ok content => parseInsightResponse content
  | Except.error _ =>
    ⟨Json.str ("neutral".data), Json.arr [], Json.str ("medium".data),
      Json.num 50, Json.arr [], Json.arr []⟩

/-- `InsightAnalyzer.parseQuestions` (src/analyzers/InsightAnalyzer.ts lines
231-243): the trimmed captures of `/^\d+\.\s*(.+)/` over the lines. -/
def parseQuestions (response : List Char) : List (List Char) :=
  (jsSplitOn '\n' response).filterMap fun line =>
    if startsNumberDot line then
      (captureTail (line.drop ((line.takeWhile Char.isDigit).length + 1))).map trimChars
    else none

/-- `InsightAnalyzer.generateQuestions` (src/analyzers/InsightAnalyzer.ts
lines 125-150): a provider error is caught and the empty list returned. -/
def generateQuestions (llmResponse : Except (List Char) (List Char)) : List (List Char) :=
  match llmResponse with
  | Except.ok content => parseQuestions content
  | Except.error _ => []

/-- `SummaryAnalyzer.summarizeDocument` (src/unnamed/part_001 lines 24-41):
unlike the InsightAnalyzer operations, the catch block re-throws
`new Error("Failed to generate summary: " + error)`, modelled as an
`Except.error` result. -/
def summarizeDocument (llmResponse : Except (List Char) (List Char)) :
    Except (List Char) SummaryResult :=
  match llmResponse with
  | Except.ok content => Except.ok (parseSummaryResponse content)
  | Except.error e => Except.error (("Failed to generate summary: ".data) ++ e)

/-- `SummaryAnalyzer.generateAbstract` (src/unnamed/part_001 lines 59-78):
also re-throws on provider error. -/
def generateAbstract (llmResponse : Except (List Char) (List Char)) :
    Except (List Char) (List Char) :=
  match llmResponse with
  | Except.ok content => Except.ok (trimChars content)
  | Except.error e => Except.error (("Failed to generate abstract: ".data) ++ e)

/-- C4 (counterexample): `SummaryAnalyzer.summarizeDocument` does not return
a default result when the provider call fails — it propagates a wrapped
error to its caller. -/
theorem summarizeDocument_c4_cex :
    summarizeDocument (Except.error (("network error").data))
      = Except.error (("Failed to generate summary: network error").data) := by
  show Except.error (("Failed to generate summary: ".data) ++ ("network error".data))
      = Except.error (("Failed to generate summary: network error").data)
  rw [show ("Failed to generate summary: ".data) ++ ("network error".data)
      = ("Failed to generate summary: network error").data from by decide]

/-- C4 (amended): on a provider error the InsightAnalyzer operations return
their empty/default structured results, while both SummaryAnalyzer
operations wrap the error and re-throw it. -/
theorem providerError_c4_amended (e : List Char) :
    extractKeywords (Except.error e) = ⟨Json.arr [], Json.arr [], Json.arr [], Json.arr []⟩
    ∧ analyzeInsights (Except.error e)
        = ⟨Json.str ("neutral".data), Json.arr [], Json.str ("medium".data),
            Json.num 50, Json.arr [], Json.arr []⟩
    ∧ generateQuestions (Except.error e) = []
    ∧ summarizeDocument (Except.error e)
        = Except.error (("Failed to generate summary: ".data) ++ e)
    ∧ generateAbstract (Except.error e)
        = Except.error (("Failed to generate abstract: ".data) ++ e) :=
  ⟨rfl, rfl, rfl, rfl, rfl⟩

end DocIntel
